import Mathlib

/-!
# Verification of the CCD windowed-frame data model (`trm.ultracam`)

A shallow embedding of `src/trm/ultracam/CCD.py` together with the Window
contract it depends on.  Pixel values are modelled as rationals, machine
floats' rounding being irrelevant to the structural properties verified
here.  Python exceptions are modelled with `Except`.
-/

set_option autoImplicit false

namespace Ultracam

/-- The numeric element kinds a Window buffer may have
(unsigned 16-bit integer, 4-byte float, 8-byte float). -/
inductive DType where
  | uint16
  | float32
  | float64
  deriving DecidableEq

/-- Whether a dtype is an integer kind (`np.integer`). -/
def DType.isInt : DType → Bool
  | .uint16 => true
  | _ => false

/-- Whether a dtype is a floating kind (`np.floating`). -/
def DType.isFloat : DType → Bool
  | .float32 => true
  | .float64 => true
  | _ => false

/-- Modelled from the spec: the `Window` class (its source file is not part
of `src/`).  A rectangular sub-image: unbinned lower-left corner `(llx, lly)`,
binned dimensions `(nx, ny)`, binning factors `(xbin, ybin)`, an element
kind, and a 2-D pixel buffer stored as a list of `ny` rows of `nx` rationals
(the spec's invariant "buffer shape matches (ny, nx) exactly" is carried as
the fields `hrows`/`hcols`). -/
structure Window where
  llx : ℕ
  lly : ℕ
  nx : ℕ
  ny : ℕ
  xbin : ℕ
  ybin : ℕ
  dtype : DType
  data : List (List ℚ)
  hrows : data.length = ny
  hcols : ∀ r ∈ data, r.length = nx

namespace Window

instance : DecidableEq Window := fun a b =>
  decidable_of_iff (a.llx = b.llx ∧ a.lly = b.lly ∧ a.nx = b.nx ∧ a.ny = b.ny ∧
      a.xbin = b.xbin ∧ a.ybin = b.ybin ∧ a.dtype = b.dtype ∧ a.data = b.data) (by
    cases a; cases b; simp)

/-- Modelled from the spec: `Window.flatten()` — the pixel buffer as a flat
sequence (row-major). -/
def flatten (w : Window) : List ℚ :=
  w.data.flatten

/-- Modelled from the spec: `Window.size` — the pixel count. -/
def size (w : Window) : ℕ :=
  w.nx * w.ny

/-- Modelled from the spec: `Window.sum()` — sum of all pixel values. -/
def wsum (w : Window) : ℚ :=
  w.flatten.sum

/-- Modelled from the spec: `Window.min()` — minimum pixel value.  The spec
leaves a zero-pixel buffer unspecified; we return `0` there. -/
def wmin (w : Window) : ℚ :=
  match w.flatten with
  | [] => 0
  | x :: xs => xs.foldl min x

/-- Modelled from the spec: `Window.max()` — maximum pixel value.  The spec
leaves a zero-pixel buffer unspecified; we return `0` there. -/
def wmax (w : Window) : ℚ :=
  match w.flatten with
  | [] => 0
  | x :: xs => xs.foldl max x

/-- Modelled from the spec: `Window.median()` — median of the pixel values
(average of the two central order statistics for an even count). -/
def wmedian (w : Window) : ℚ :=
  let s := w.flatten.mergeSort (· ≤ ·)
  let n := s.length
  if n = 0 then 0
  else if n % 2 = 0 then (s.getD (n / 2 - 1) 0 + s.getD (n / 2) 0) / 2
  else s.getD (n / 2) 0

/-- Any element of a `zipWith` comes from elements of the two lists. -/
theorem exists_of_mem_zipWith {α β γ : Type} {f : α → β → γ} :
    ∀ {l₁ : List α} {l₂ : List β} {c : γ}, c ∈ List.zipWith f l₁ l₂ →
      ∃ a ∈ l₁, ∃ b ∈ l₂, c = f a b
  | [], _, _, h => by simp at h
  | _ :: _, [], _, h => by simp at h
  | a :: l₁, b :: l₂, c, h => by
    rcases List.mem_cons.1 h with h | h
    · exact ⟨a, List.mem_cons_self .., b, List.mem_cons_self .., h⟩
    · rcases exists_of_mem_zipWith h with ⟨a', ha, b', hb, rfl⟩
      exact ⟨a', List.mem_cons_of_mem _ ha, b', List.mem_cons_of_mem _ hb, rfl⟩

/-- Maps a function over every pixel of the buffer, keeping the shape. -/
def pixmap (f : ℚ → ℚ) (w : Window) : Window :=
  { w with
    data := w.data.map (List.map f)
    hrows := by simp [w.hrows]
    hcols := by
      intro r hr
      rcases List.mem_map.1 hr with ⟨r0, hr0, rfl⟩
      simp [w.hcols r0 hr0] }

/-- Modelled from the spec: elementwise Window-Window arithmetic.  The spec
defines it against another Window of equal shape; the embedding truncates to
the common shape so the operation is total (the equal-shape case, the only
one the spec defines, is exact elementwise application).  Geometry and kind
come from the left operand. -/
def binop (f : ℚ → ℚ → ℚ) (a b : Window) : Window :=
  { llx := a.llx, lly := a.lly
    nx := min a.nx b.nx, ny := min a.ny b.ny
    xbin := a.xbin, ybin := a.ybin
    dtype := a.dtype
    data := List.zipWith (List.zipWith f) a.data b.data
    hrows := by simp [a.hrows, b.hrows]
    hcols := by
      intro r hr
      rcases exists_of_mem_zipWith hr with ⟨ra, hra, rb, hrb, rfl⟩
      simp [a.hcols ra hra, b.hcols rb hrb] }

/-- Modelled from the spec: `Window.totype(kind)` — converts the buffer to
the requested kind; for the integer target values are rounded to nearest and
wrap into the unsigned 16-bit range (the spec's "(lossy/wrapping)"
conversion); float targets keep the values. -/
def totype (k : DType) (w : Window) : Window :=
  match k with
  | .uint16 => { (pixmap (fun q => ((round q) % (65536 : ℤ) : ℤ)) w) with dtype := .uint16 }
  | .float32 => { w with dtype := .float32 }
  | .float64 => { w with dtype := .float64 }

/-- Modelled from the spec: Window equality — position, binning, shape and
all pixel values match exactly. -/
def eqb (a b : Window) : Bool :=
  decide (a.llx = b.llx ∧ a.lly = b.lly ∧ a.nx = b.nx ∧ a.ny = b.ny ∧
    a.xbin = b.xbin ∧ a.ybin = b.ybin ∧ a.data = b.data)

/-- Modelled from the spec: the enclosure test `self >= other` — `other`'s
unbinned region is fully contained in `self`'s, at a compatible or coarser
binning, aligned so that extraction is possible. -/
def ge (w v : Window) : Bool :=
  v.xbin % w.xbin = 0 && v.ybin % w.ybin = 0 &&
  w.llx ≤ v.llx && w.lly ≤ v.lly &&
  (v.llx - w.llx) % w.xbin = 0 && (v.lly - w.lly) % w.ybin = 0 &&
  v.llx + v.nx * v.xbin ≤ w.llx + w.nx * w.xbin &&
  v.lly + v.ny * v.ybin ≤ w.lly + w.ny * w.ybin

/-- Modelled from the spec: `Window.canCropTo(other)` — `self` can be
cropped to exactly match `other`'s region and binning: equal binning,
aligned offsets, and `other`'s region contained in `self`'s. -/
def canCropTo (w v : Window) : Bool :=
  w.xbin = v.xbin && w.ybin = v.ybin &&
  w.llx ≤ v.llx && w.lly ≤ v.lly &&
  (v.llx - w.llx) % w.xbin = 0 && (v.lly - w.lly) % w.ybin = 0 &&
  v.llx + v.nx * v.xbin ≤ w.llx + w.nx * w.xbin &&
  v.lly + v.ny * v.ybin ≤ w.lly + w.ny * w.ybin

/-- Pixel lookup in a 2-D buffer, `0` outside the stored extent. -/
def at2 (data : List (List ℚ)) (i j : ℕ) : ℚ :=
  (data.getD i []).getD j 0

/-- Modelled from the spec: `Window.cropTo(other)` — a new Window whose
region and binning match `other`, with pixel values extracted from `self`
(undefined by the spec when `canCropTo` is false; the embedding then reads
`0` for the out-of-range pixels). -/
def cropTo (w v : Window) : Window :=
  let y0 := (v.lly - w.lly) / w.ybin
  let x0 := (v.llx - w.llx) / w.xbin
  { llx := v.llx, lly := v.lly
    nx := v.nx, ny := v.ny
    xbin := v.xbin, ybin := v.ybin
    dtype := w.dtype
    data := (List.range v.ny).map fun i =>
      (List.range v.nx).map fun j => at2 w.data (y0 + i) (x0 + j)
    hrows := by simp
    hcols := by
      intro r hr
      rcases List.mem_map.1 hr with ⟨i, _, rfl⟩
      simp }

end Window

/-- An opaque header value (`Uhead`); the core only stores and forwards it. -/
structure Uhead where
  tag : ℕ
  deriving DecidableEq

/-- An opaque time value (`Time`); the core only propagates it. -/
structure UTime where
  mjd : ℤ
  deriving DecidableEq

/-- The Python exceptions the embedded operations can raise. -/
inductive PyErr where
  /-- `UltracamError('CCD.crop: maximum dimensions did not match')`. -/
  | dimMismatch
  /-- `UltracamError('CCD.crop: could not crop any window ... to match window n of other.')`,
  carrying the reported 1-based window number `n`. -/
  | cropMatchFail (n : ℕ)
  /-- Python `AttributeError` (a number has no attribute `good`). -/
  | attributeError
  /-- Python `ZeroDivisionError`. -/
  | zeroDivision
  deriving DecidableEq

/-- Embedding of `CCD.__init__` (`CCD.py`): a list of Windows (`self._data`) plus the
frame-level metadata `time`, `nxmax`, `nymax`, `good`, `head`.  The
isinstance checks of the constructor are enforced by typing. -/
structure CCD where
  data : List Window
  time : UTime
  nxmax : ℕ
  nymax : ℕ
  good : Bool
  head : Option Uhead
  deriving DecidableEq

instance {ε α : Type} [DecidableEq ε] [DecidableEq α] : DecidableEq (Except ε α)
  | .ok a, .ok b => decidable_of_iff (a = b) (by simp)
  | .error a, .error b => decidable_of_iff (a = b) (by simp)
  | .ok _, .error _ => isFalse (by simp)
  | .error _, .ok _ => isFalse (by simp)

namespace CCD

/-- Embedding of `CCD.__len__`: the number of windows. -/
def len (c : CCD) : ℕ :=
  c.data.length

/-- Embedding of `CCD.__eq__` (`CCD.py` lines 51-64): `False` if `nxmax`, `nymax` or the
window counts differ, else the windows are compared pairwise in order. -/
def eqb (a b : CCD) : Bool :=
  if a.nxmax ≠ b.nxmax ∨ a.nymax ≠ b.nymax ∨ a.len ≠ b.len then false
  else (a.data.zip b.data).all fun p => Window.eqb p.1 p.2

/-- Embedding of `CCD.__ne__`: negation of `__eq__` (the `NotImplemented` branch never
fires for two CCDs). -/
def neb (a b : CCD) : Bool :=
  ! eqb a b

/-- Embedding of `CCD.anyInt`: `True` if any window's dtype is an integer kind. -/
def anyInt (c : CCD) : Bool :=
  c.data.any fun w => w.dtype.isInt

/-- Embedding of `CCD.anyFloat`: `True` if any window's dtype is a floating kind. -/
def anyFloat (c : CCD) : Bool :=
  c.data.any fun w => w.dtype.isFloat

/-- Embedding of `CCD.toFloat(single)`: converts every window to `float32` if `single`
else `float64`. -/
def toFloat (single : Bool) (c : CCD) : CCD :=
  { c with data := c.data.map fun w =>
      if single then w.totype .float32 else w.totype .float64 }

/-- Embedding of `CCD.toInt` (`CCD.py` lines 145-154): converts every window to
`uint16`; each window whose pre-conversion minimum is below 0 or maximum
exceeds 65535 first emits a (non-fatal) warning.  The result pairs the
0-based indices of the windows that warned with the converted CCD. -/
def toInt (c : CCD) : List ℕ × CCD :=
  (((c.data.enum.filter fun p => p.2.wmin < 0 ∨ 65535 < p.2.wmax).map Prod.fst),
   { c with data := c.data.map (Window.totype .uint16) })

/-- Embedding of `CCD.mean` (`CCD.py` lines 156-165): total pixel sum over total pixel
count; Python's `sum / float(nelem)` raises `ZeroDivisionError` when the
total pixel count is zero. -/
def mean (c : CCD) : Except PyErr ℚ :=
  let nelem : ℕ := c.data.foldl (fun n w => n + w.size) 0
  let s : ℚ := c.data.foldl (fun s w => s + w.wsum) 0
  if nelem = 0 then .error .zeroDivision else .ok (s / (nelem : ℚ))

/-- Embedding of `CCD.min` (`CCD.py` lines 167-174): running minimum over the windows'
minima, starting from `None`. -/
def cmin (c : CCD) : Option ℚ :=
  c.data.foldl (fun m w => match m with
    | none => some w.wmin
    | some v => some (min v w.wmin)) none

/-- Embedding of `CCD.max` (`CCD.py` lines 176-183): running maximum over the windows'
maxima, starting from `None`. -/
def cmax (c : CCD) : Option ℚ :=
  c.data.foldl (fun m w => match m with
    | none => some w.wmax
    | some v => some (max v w.wmax)) none

/-- Embedding of `CCD.npix`: sum of the windows' pixel counts. -/
def npix (c : CCD) : ℕ :=
  c.data.foldl (fun n w => n + w.size) 0

/-- Embedding of `CCD.rback`: in place, subtracts each window's own median from it. -/
def rback (c : CCD) : CCD :=
  { c with data := c.data.map fun w => w.pixmap (· - w.wmedian) }

/-- Embedding of `CCD.canCropTo` (`CCD.py` lines 254-268): dimension check, then every
window of `ccd` must be enclosed (`>=`) by some window of `self`. -/
def canCropTo (a b : CCD) : Bool :=
  if a.nxmax ≠ b.nxmax ∨ a.nymax ≠ b.nymax then false
  else b.data.all fun wo => a.data.any fun w => Window.ge w wo

/-- The inner scan of `CCD.cropTo`: the first window of `ws` that
`canCropTo` the target `t`, cropped to `t`. -/
def findCrop (ws : List Window) (t : Window) : Option Window :=
  match ws with
  | [] => none
  | w :: rest => if Window.canCropTo w t then some (w.cropTo t) else findCrop rest t

/-- The outer loop of `CCD.cropTo` over the target windows; `n` counts the
targets already handled, so a failure at the head reports number `n + 1`. -/
def cropGo (ws : List Window) (targets : List Window) (n : ℕ) :
    Except PyErr (List Window) :=
  match targets with
  | [] => .ok []
  | t :: ts =>
    match findCrop ws t with
    | some w => (cropGo ws ts (n + 1)).map (w :: ·)
    | none => .error (.cropMatchFail (n + 1))

/-- Embedding of `CCD.cropTo` (`CCD.py` lines 270-288): dimension check, then for each
window of `ccd` the first croppable window of `self` is cropped to it; an
unmatched target raises an error naming its 1-based position.  On success a
new CCD carries `self`'s time, dimensions, validity flag and header. -/
def cropTo (a b : CCD) : Except PyErr CCD :=
  if a.nxmax ≠ b.nxmax ∨ a.nymax ≠ b.nymax then .error .dimMismatch
  else (cropGo a.data b.data 0).map fun ws =>
    { data := ws, time := a.time, nxmax := a.nxmax, nymax := a.nymax,
      good := a.good, head := a.head }

/-- Embedding of `CCD.__add__` with a CCD operand (`CCD.py` lines 340-351): windows are
paired by `zip` (truncating to the shorter list) and added; the result's
flag is `self.good and other.good`. -/
def add (a b : CCD) : CCD :=
  { data := List.zipWith (Window.binop (· + ·)) a.data b.data,
    time := a.time, nxmax := a.nxmax, nymax := a.nymax,
    good := a.good && b.good, head := a.head }

/-- Embedding of `CCD.__sub__` with a CCD operand (`CCD.py` lines 353-364). -/
def sub (a b : CCD) : CCD :=
  { data := List.zipWith (Window.binop (· - ·)) a.data b.data,
    time := a.time, nxmax := a.nxmax, nymax := a.nymax,
    good := a.good && b.good, head := a.head }

/-- Embedding of `CCD.__mul__` with a CCD operand (`CCD.py` lines 366-377). -/
def mul (a b : CCD) : CCD :=
  { data := List.zipWith (Window.binop (· * ·)) a.data b.data,
    time := a.time, nxmax := a.nxmax, nymax := a.nymax,
    good := a.good && b.good, head := a.head }

/-- Embedding of `CCD.__div__` with a CCD operand (`CCD.py` lines 379-390). -/
def div (a b : CCD) : CCD :=
  { data := List.zipWith (Window.binop (· / ·)) a.data b.data,
    time := a.time, nxmax := a.nxmax, nymax := a.nymax,
    good := a.good && b.good, head := a.head }

/-- The common tail of the scalar branches of `__add__`/`__sub__`/`__mul__`/
`__div__`/`__radd__`/... (`CCD.py` lines 340-426): after building the new
window list, the constructor argument `self.good and other.good` is
evaluated.  Python's `and` short-circuits: when `self.good` is `False` the
flag is `False` and no attribute of `other` is touched; when `self.good` is
`True`, `other.good` is evaluated on the scalar operand and raises
`AttributeError`. -/
def scalarResult (c : CCD) (twins : List Window) : Except PyErr CCD :=
  if c.good then .error .attributeError
  else .ok { data := twins, time := c.time, nxmax := c.nxmax, nymax := c.nymax,
             good := false, head := c.head }

/-- Embedding of `CCD.__add__` with a scalar operand (`CCD.py` lines 340-351). -/
def addScalar (c : CCD) (s : ℚ) : Except PyErr CCD :=
  scalarResult c (c.data.map (Window.pixmap (· + s)))

/-- Embedding of `CCD.__sub__` with a scalar operand (`CCD.py` lines 353-364). -/
def subScalar (c : CCD) (s : ℚ) : Except PyErr CCD :=
  scalarResult c (c.data.map (Window.pixmap (· - s)))

/-- Embedding of `CCD.__mul__` with a scalar operand (`CCD.py` lines 366-377). -/
def mulScalar (c : CCD) (s : ℚ) : Except PyErr CCD :=
  scalarResult c (c.data.map (Window.pixmap (· * s)))

/-- Embedding of `CCD.__div__` with a scalar operand (`CCD.py` lines 379-390). -/
def divScalar (c : CCD) (s : ℚ) : Except PyErr CCD :=
  scalarResult c (c.data.map (Window.pixmap (· / s)))

/-- Embedding of `CCD.__radd__` (`CCD.py` lines 392-399): `scalar + CCD`. -/
def raddScalar (c : CCD) (s : ℚ) : Except PyErr CCD :=
  scalarResult c (c.data.map (Window.pixmap (s + ·)))

/-- Embedding of `CCD.__rsub__` (`CCD.py` lines 401-408): `scalar - CCD`. -/
def rsubScalar (c : CCD) (s : ℚ) : Except PyErr CCD :=
  scalarResult c (c.data.map (Window.pixmap (s - ·)))

/-- Embedding of `CCD.__rmul__` (`CCD.py` lines 410-417): `scalar * CCD`. -/
def rmulScalar (c : CCD) (s : ℚ) : Except PyErr CCD :=
  scalarResult c (c.data.map (Window.pixmap (s * ·)))

/-- Embedding of `CCD.__rdiv__` (`CCD.py` lines 419-426): `scalar / CCD`. -/
def rdivScalar (c : CCD) (s : ℚ) : Except PyErr CCD :=
  scalarResult c (c.data.map (Window.pixmap (s / ·)))

/-- Embedding of `CCD.__iadd__` with a CCD operand (`CCD.py` lines 291-302): the `zip`
updates the windows pairwise up to the shorter length; windows of `self`
beyond `other`'s count are untouched. -/
def iaddCCD (a b : CCD) : CCD :=
  { a with data := List.zipWith (Window.binop (· + ·)) a.data b.data ++
      a.data.drop b.data.length }

/-- Embedding of `CCD.__isub__` with a CCD operand (`CCD.py` lines 304-314). -/
def isubCCD (a b : CCD) : CCD :=
  { a with data := List.zipWith (Window.binop (· - ·)) a.data b.data ++
      a.data.drop b.data.length }

/-- Embedding of `CCD.__imul__` with a CCD operand (`CCD.py` lines 316-326). -/
def imulCCD (a b : CCD) : CCD :=
  { a with data := List.zipWith (Window.binop (· * ·)) a.data b.data ++
      a.data.drop b.data.length }

/-- Embedding of `CCD.__idiv__` with a CCD operand (`CCD.py` lines 328-338). -/
def idivCCD (a b : CCD) : CCD :=
  { a with data := List.zipWith (Window.binop (· / ·)) a.data b.data ++
      a.data.drop b.data.length }

/-- Embedding of `CCD.__iadd__` with a scalar operand (`CCD.py` lines 291-302). -/
def iaddScalar (c : CCD) (s : ℚ) : CCD :=
  { c with data := c.data.map (Window.pixmap (· + s)) }

/-- Embedding of `CCD.__isub__` with a scalar operand (`CCD.py` lines 304-314). -/
def isubScalar (c : CCD) (s : ℚ) : CCD :=
  { c with data := c.data.map (Window.pixmap (· - s)) }

/-- Embedding of `CCD.__imul__` with a scalar operand (`CCD.py` lines 316-326). -/
def imulScalar (c : CCD) (s : ℚ) : CCD :=
  { c with data := c.data.map (Window.pixmap (· * s)) }

/-- Embedding of `CCD.__idiv__` with a scalar operand (`CCD.py` lines 328-338). -/
def idivScalar (c : CCD) (s : ℚ) : CCD :=
  { c with data := c.data.map (Window.pixmap (· / s)) }

end CCD

/-- Fields preserved by every in-place CCD operation: the frame metadata
and the window count. -/
def SameMeta (r a : CCD) : Prop :=
  r.time = a.time ∧ r.nxmax = a.nxmax ∧ r.nymax = a.nymax ∧
  r.good = a.good ∧ r.head = a.head ∧ r.data.length = a.data.length

/-! ### Concrete fixtures (used by witnesses and counterexamples) -/

/-- A 2×1 unbinned window at the origin with pixel values 5, 7. -/
def exWin : Window := ⟨0, 0, 2, 1, 1, 1, .uint16, [[5, 7]], by decide, by decide⟩

/-- A 1×1 window at (1,0) with pixel value 9; its region lies inside
`exWin`'s. -/
def exWinSmall : Window := ⟨1, 0, 1, 1, 1, 1, .uint16, [[9]], by decide, by decide⟩

/-- Window `exWin` cropped to `exWinSmall`'s format: it picks up `exWin`'s pixel 7. -/
def exWinCrop : Window := ⟨1, 0, 1, 1, 1, 1, .uint16, [[7]], by decide, by decide⟩

/-- A window with zero dimensions and an empty pixel buffer. -/
def exWinZero : Window := ⟨0, 0, 0, 0, 1, 1, .float32, [], by decide, by decide⟩

/-- An example capture time. -/
def exTime : UTime := ⟨55000⟩

/-- A one-window good CCD. -/
def exCCD : CCD := ⟨[exWin], exTime, 10, 10, true, none⟩

/-- A two-window good CCD whose second window's region lies inside the
first's (overlapping windows, which the constructor does not reject). -/
def exCCD2 : CCD := ⟨[exWin, exWinSmall], exTime, 10, 10, true, none⟩

/-- The value of `exCCD2.cropTo(exCCD2)`. -/
def exCropRes : CCD := ⟨[exWin, exWinCrop], exTime, 10, 10, true, none⟩

/-- A CCD with no windows at all. -/
def exCCDEmpty : CCD := ⟨[], exTime, 10, 10, true, none⟩

/-- A CCD whose single window holds no pixels. -/
def exCCDZero : CCD := ⟨[exWinZero], exTime, 10, 10, true, none⟩

/-- A one-window CCD with different maximum dimensions. -/
def exCCDBadDims : CCD := ⟨[exWin], exTime, 20, 10, true, none⟩

/-- A one-window CCD flagged as junk (`good = False`). -/
def exCCDBad : CCD := ⟨[exWinSmall], exTime, 10, 10, false, none⟩

/-! ### Shared lemmas -/

/-- An `all` over a `zip` is pointwise truth at every index below both
lengths. -/
theorem zip_all_iff {α β : Type} {f : α → β → Bool} {xs : List α} {ys : List β} :
    ((xs.zip ys).all fun p => f p.1 p.2) = true ↔
      ∀ (i : ℕ) (h1 : i < xs.length) (h2 : i < ys.length), f xs[i] ys[i] = true := by
  rw [List.all_eq_true]
  constructor
  · intro h i h1 h2
    have hlt : i < (xs.zip ys).length := by
      rw [List.length_zip]; omega
    have hm := h (xs.zip ys)[i] (List.getElem_mem hlt)
    rwa [List.getElem_zip] at hm
  · intro h p hp
    rcases List.mem_iff_getElem.1 hp with ⟨i, hi, rfl⟩
    rw [List.getElem_zip]
    rw [List.length_zip] at hi
    exact h i (by omega) (by omega)

/-- The length of the window list produced by an in-place CCD-CCD
operation equals the left operand's. -/
theorem length_zipWith_append_drop {α : Type} (f : α → α → α) (xs ys : List α) :
    (List.zipWith f xs ys ++ xs.drop ys.length).length = xs.length := by
  rw [List.length_append, List.length_zipWith, List.length_drop]
  omega

/-- Entry `i` of a `zipWith`, when `i` is below both lengths. -/
theorem zipWith_getElem?_eq {α : Type} (f : α → α → α) (xs ys : List α) (i : ℕ)
    (h1 : i < xs.length) (h2 : i < ys.length) :
    (List.zipWith f xs ys)[i]? = some (f xs[i] ys[i]) := by
  have hlt : i < (List.zipWith f xs ys).length := by
    rw [List.length_zipWith]; omega
  rw [List.getElem?_eq_getElem hlt, List.getElem_zipWith]

/-- Entry `i` of an in-place CCD-CCD window update, in the zipped range. -/
theorem zipWith_append_drop_getElem?_lt {α : Type} (f : α → α → α)
    (xs ys : List α) (i : ℕ) (h1 : i < xs.length) (h2 : i < ys.length) :
    (List.zipWith f xs ys ++ xs.drop ys.length)[i]? = some (f xs[i] ys[i]) := by
  rw [List.getElem?_append, if_pos (by rw [List.length_zipWith]; omega)]
  exact zipWith_getElem?_eq f xs ys i h1 h2

/-- Entry `i` of an in-place CCD-CCD window update, beyond the zipped
range: the original entry of the left operand. -/
theorem zipWith_append_drop_getElem?_ge {α : Type} (f : α → α → α)
    (xs ys : List α) (i : ℕ) (h : ys.length ≤ i) :
    (List.zipWith f xs ys ++ xs.drop ys.length)[i]? = xs[i]? := by
  by_cases hx : i < xs.length
  · have hmin : (List.zipWith f xs ys).length = ys.length := by
      rw [List.length_zipWith]; omega
    rw [List.getElem?_append_right (by omega : (List.zipWith f xs ys).length ≤ i),
      hmin, List.getElem?_drop]
    congr 1
    omega
  · rw [List.getElem?_eq_none (by simp; omega), List.getElem?_eq_none (by omega)]

/-- Folding `+` of a mapped value starting from `s` is `s` plus the mapped
sum. -/
theorem foldl_add_map {α M : Type} [AddCommMonoid M] (f : α → M) :
    ∀ (l : List α) (s : M), l.foldl (fun acc x => acc + f x) s = s + (l.map f).sum
  | [], s => by simp
  | x :: xs, s => by
    simp [foldl_add_map f xs, add_assoc]

/-! ### Claim theorems -/

/-- C9: for a CCD with no windows, `min()` and `max()` return the absent
value (`None`) without raising, while `mean()` raises `ZeroDivisionError`
because the total pixel count is 0. -/
theorem empty_ccd_stats (c : CCD) (h : c.data = []) :
    c.cmin = none ∧ c.cmax = none ∧ c.mean = .error .zeroDivision := by
  simp [CCD.cmin, CCD.cmax, CCD.mean, h]

theorem empty_ccd_stats_witness :
    exCCDEmpty.data = [] ∧
      exCCDEmpty.cmin = none ∧ exCCDEmpty.cmax = none ∧
      exCCDEmpty.mean = .error .zeroDivision :=
  ⟨rfl, empty_ccd_stats exCCDEmpty rfl⟩

/-- C4: two CCDs are equal exactly when `nxmax`, `nymax` and the window
counts agree and the windows pair up equal in order, and `__ne__` is the
strict negation of `__eq__`. -/
theorem eq_iff_dims_and_windows (a b : CCD) :
    (CCD.eqb a b = true ↔
      a.nxmax = b.nxmax ∧ a.nymax = b.nymax ∧ a.data.length = b.data.length ∧
        ∀ (i : ℕ) (h1 : i < a.data.length) (h2 : i < b.data.length),
          Window.eqb a.data[i] b.data[i] = true) ∧
    CCD.neb a b = ! CCD.eqb a b := by
  refine ⟨?_, rfl⟩
  unfold CCD.eqb CCD.len
  split
  next hc =>
    simp only [Bool.false_eq_true, false_iff]
    intro ⟨h1, h2, h3, _⟩
    rcases hc with h | h | h
    · exact h h1
    · exact h h2
    · exact h h3
  next hc =>
    push_neg at hc
    rw [zip_all_iff]
    simp [hc.1, hc.2.1, hc.2.2]

theorem eq_iff_dims_and_windows_witness : CCD.eqb exCCD exCCD = true :=
  (eq_iff_dims_and_windows exCCD exCCD).1.mpr
    ⟨rfl, rfl, rfl, by decide⟩

/-- C2 counterexample: two CCDs with equal dimensions whose zipped window
pairs are all equal but whose window counts differ; `__eq__` returns
`False` from the count mismatch instead of comparing only the paired
windows. -/
theorem eq_count_mismatch_counterexample :
    CCD.eqb exCCD exCCD2 = false ∧
      exCCD.nxmax = exCCD2.nxmax ∧ exCCD.nymax = exCCD2.nymax ∧
      exCCD.data.length ≠ exCCD2.data.length ∧
      ((exCCD.data.zip exCCD2.data).all fun p => Window.eqb p.1 p.2) = true := by
  decide

/-- C2 amended: `__eq__` decides inequality from a window-count mismatch —
whenever the counts differ it returns `False`; only the CCD-CCD arithmetic
operators truncate silently. -/
theorem eq_false_of_count_mismatch (a b : CCD)
    (h : a.data.length ≠ b.data.length) : CCD.eqb a b = false := by
  unfold CCD.eqb CCD.len
  rw [if_pos (Or.inr (Or.inr h))]

theorem eq_false_of_count_mismatch_witness : CCD.eqb exCCD exCCD2 = false :=
  eq_false_of_count_mismatch exCCD exCCD2 (by decide)

/-- C1: for a CCD whose validity flag is `True`, every value-returning
scalar arithmetic operation raises `AttributeError`, because the
constructor argument `self.good and other.good` evaluates `other.good` on
the number.  (Only a `good = False` CCD completes, with flag `False`.) -/
theorem scalar_arith_attribute_error (c : CCD) (s : ℚ) (h : c.good = true) :
    c.addScalar s = .error .attributeError ∧
    c.subScalar s = .error .attributeError ∧
    c.mulScalar s = .error .attributeError ∧
    c.divScalar s = .error .attributeError ∧
    c.raddScalar s = .error .attributeError ∧
    c.rsubScalar s = .error .attributeError ∧
    c.rmulScalar s = .error .attributeError ∧
    c.rdivScalar s = .error .attributeError := by
  simp [CCD.addScalar, CCD.subScalar, CCD.mulScalar, CCD.divScalar,
    CCD.raddScalar, CCD.rsubScalar, CCD.rmulScalar, CCD.rdivScalar,
    CCD.scalarResult, h]

theorem scalar_arith_attribute_error_witness :
    exCCD.good = true ∧ exCCD.addScalar 1 = .error .attributeError :=
  ⟨rfl, (scalar_arith_attribute_error exCCD 1 rfl).1⟩

/-- C10: every in-place operation (`+= -= *= /=` with a scalar or CCD
operand, and `rback()`) keeps `time`, `nxmax`, `nymax`, `good`, `head` and
the window count unchanged; only the pixel buffers change. -/
theorem inplace_preserves_metadata (a b : CCD) (s : ℚ) :
    SameMeta (a.iaddScalar s) a ∧ SameMeta (a.isubScalar s) a ∧
    SameMeta (a.imulScalar s) a ∧ SameMeta (a.idivScalar s) a ∧
    SameMeta (a.iaddCCD b) a ∧ SameMeta (a.isubCCD b) a ∧
    SameMeta (a.imulCCD b) a ∧ SameMeta (a.idivCCD b) a ∧
    SameMeta a.rback a := by
  refine ⟨?_, ?_, ?_, ?_, ?_, ?_, ?_, ?_, ?_⟩ <;>
    refine ⟨rfl, rfl, rfl, rfl, rfl, ?_⟩ <;>
    · simp [CCD.iaddScalar, CCD.isubScalar, CCD.imulScalar, CCD.idivScalar,
        CCD.iaddCCD, CCD.isubCCD, CCD.imulCCD, CCD.idivCCD, CCD.rback,
        length_zipWith_append_drop]
      try omega

/-- C5: CCD-CCD arithmetic, in-place and value-returning, pairs windows
positionally up to the shorter window count and applies the Window
arithmetic per pair, never failing on a count mismatch; the value-returning
result has exactly `min` count windows, and in-place updates leave the left
operand's windows beyond that count unchanged. -/
theorem ccd_arith_pairs_positionally (a b : CCD) :
    ((a.add b).data.length = min a.data.length b.data.length ∧
      (a.sub b).data.length = min a.data.length b.data.length ∧
      (a.mul b).data.length = min a.data.length b.data.length ∧
      (a.div b).data.length = min a.data.length b.data.length) ∧
    (∀ (i : ℕ) (h1 : i < a.data.length) (h2 : i < b.data.length),
      (a.add b).data[i]? = some (Window.binop (· + ·) a.data[i] b.data[i]) ∧
      (a.sub b).data[i]? = some (Window.binop (· - ·) a.data[i] b.data[i]) ∧
      (a.mul b).data[i]? = some (Window.binop (· * ·) a.data[i] b.data[i]) ∧
      (a.div b).data[i]? = some (Window.binop (· / ·) a.data[i] b.data[i]) ∧
      (a.iaddCCD b).data[i]? = some (Window.binop (· + ·) a.data[i] b.data[i]) ∧
      (a.isubCCD b).data[i]? = some (Window.binop (· - ·) a.data[i] b.data[i]) ∧
      (a.imulCCD b).data[i]? = some (Window.binop (· * ·) a.data[i] b.data[i]) ∧
      (a.idivCCD b).data[i]? = some (Window.binop (· / ·) a.data[i] b.data[i])) ∧
    (∀ (i : ℕ), b.data.length ≤ i →
      (a.iaddCCD b).data[i]? = a.data[i]? ∧
      (a.isubCCD b).data[i]? = a.data[i]? ∧
      (a.imulCCD b).data[i]? = a.data[i]? ∧
      (a.idivCCD b).data[i]? = a.data[i]?) := by
  refine ⟨⟨?_, ?_, ?_, ?_⟩, ?_, ?_⟩
  · simp [CCD.add]
  · simp [CCD.sub]
  · simp [CCD.mul]
  · simp [CCD.div]
  · intro i h1 h2
    exact ⟨zipWith_getElem?_eq _ _ _ i h1 h2, zipWith_getElem?_eq _ _ _ i h1 h2,
      zipWith_getElem?_eq _ _ _ i h1 h2, zipWith_getElem?_eq _ _ _ i h1 h2,
      zipWith_append_drop_getElem?_lt _ _ _ i h1 h2,
      zipWith_append_drop_getElem?_lt _ _ _ i h1 h2,
      zipWith_append_drop_getElem?_lt _ _ _ i h1 h2,
      zipWith_append_drop_getElem?_lt _ _ _ i h1 h2⟩
  · intro i h
    exact ⟨zipWith_append_drop_getElem?_ge _ _ _ i h,
      zipWith_append_drop_getElem?_ge _ _ _ i h,
      zipWith_append_drop_getElem?_ge _ _ _ i h,
      zipWith_append_drop_getElem?_ge _ _ _ i h⟩

theorem ccd_arith_pairs_positionally_witness :
    (exCCD.add exCCD2).data.length = 1 ∧
      (exCCD2.iaddCCD exCCD).data[1]? = exCCD2.data[1]? :=
  ⟨((ccd_arith_pairs_positionally exCCD exCCD2).1.1).trans (by decide),
    ((ccd_arith_pairs_positionally exCCD2 exCCD).2.2 1 (by decide)).1⟩

/-- C6 counterexample: a CCD with a non-empty window sequence whose single
window holds no pixels; `mean()` raises `ZeroDivisionError` instead of
returning a value. -/
theorem mean_zero_pixels_counterexample :
    exCCDZero.data ≠ [] ∧ exCCDZero.mean = .error .zeroDivision := by
  decide

/-- C6 amended: for every CCD with a non-empty window sequence and a
non-zero total pixel count, `mean()` is the sum of all pixel values pooled
across all windows divided by the total pixel count. -/
theorem mean_eq_pooled_sum_div (c : CCD) (hne : c.data ≠ [])
    (hn : c.npix ≠ 0) :
    c.mean = .ok ((c.data.map Window.flatten).flatten.sum / (c.npix : ℚ)) := by
  have hnp : c.data.foldl (fun n w => n + w.size) 0 = c.npix := rfl
  unfold CCD.mean
  simp only [hnp]
  rw [if_neg hn]
  congr 1
  rw [List.sum_flatten, List.map_map, foldl_add_map, zero_add]
  congr 1

theorem mean_eq_pooled_sum_div_witness : exCCD2.mean = .ok 7 := by
  rw [mean_eq_pooled_sum_div exCCD2 (by decide) (by decide)]
  norm_num [exCCD2, exWin, exWinSmall, Window.flatten, CCD.npix,
    Window.size, Window.wsum]

/-- C7 counterexample: for the CCD with no windows, `toInt()` followed by
`anyInt()` returns `False`, not `True`. -/
theorem toInt_anyInt_empty_counterexample :
    CCD.anyInt (CCD.toInt exCCDEmpty).2 = false := by
  decide

/-- C7 amended: for every CCD with at least one window, `toInt()` followed
by `anyInt()` returns `True`; during `toInt()` exactly the windows whose
pre-conversion minimum is below 0 or maximum exceeds 65535 warn
(non-fatally), and the conversion to unsigned 16-bit integers proceeds for
every window. -/
theorem toInt_then_anyInt (c : CCD) (h : c.data ≠ []) :
    CCD.anyInt c.toInt.2 = true ∧
    c.toInt.2.data.length = c.data.length ∧
    (∀ (i : ℕ) (h1 : i < c.data.length),
      c.toInt.2.data[i]? = some (Window.totype .uint16 c.data[i])) ∧
    (∀ (i : ℕ) (h1 : i < c.data.length),
      i ∈ c.toInt.1 ↔ c.data[i].wmin < 0 ∨ 65535 < c.data[i].wmax) := by
  refine ⟨?_, by simp [CCD.toInt], ?_, ?_⟩
  · rcases List.exists_mem_of_ne_nil c.data h with ⟨w, hw⟩
    simp only [CCD.toInt, CCD.anyInt, List.any_eq_true]
    exact ⟨Window.totype .uint16 w, List.mem_map_of_mem _ hw, rfl⟩
  · intro i h1
    simp [CCD.toInt, List.getElem?_eq_getElem, h1]
  · intro i h1
    simp only [CCD.toInt, List.mem_map, List.mem_filter, Prod.exists]
    constructor
    · rintro ⟨j, w, ⟨hmem, hrange⟩, rfl⟩
      rw [List.mk_mem_enum_iff_getElem?, List.getElem?_eq_getElem h1] at hmem
      cases hmem
      simpa using hrange
    · intro hrange
      refine ⟨i, c.data[i], ⟨?_, by simpa using hrange⟩, rfl⟩
      rw [List.mk_mem_enum_iff_getElem?, List.getElem?_eq_getElem h1]

theorem toInt_then_anyInt_witness :
    CCD.anyInt exCCD.toInt.2 = true :=
  (toInt_then_anyInt exCCD (by decide)).1

/-- An `Except.map` produces an error exactly from an error. -/
theorem except_map_eq_error {ε α β : Type} (f : α → β) (x : Except ε α) (e : ε) :
    x.map f = .error e ↔ x = .error e := by
  cases x <;> simp [Except.map]

/-- An `Except.map` produces a success exactly from a success. -/
theorem except_map_eq_ok {ε α β : Type} (f : α → β) (x : Except ε α) (y : β) :
    x.map f = .ok y ↔ ∃ z, x = .ok z ∧ y = f z := by
  cases x <;> simp [Except.map, eq_comm]

/-- The scan of `CCD.cropTo` finds nothing exactly when no window can crop
to the target. -/
theorem findCrop_eq_none_iff (t : Window) :
    ∀ (ws : List Window),
      CCD.findCrop ws t = none ↔ ∀ w ∈ ws, Window.canCropTo w t = false
  | [] => by simp [CCD.findCrop]
  | w :: rest => by
    show (if Window.canCropTo w t then some (w.cropTo t) else CCD.findCrop rest t)
        = none ↔ _
    by_cases hcan : Window.canCropTo w t = true
    · rw [if_pos hcan]
      simp only [reduceCtorEq, false_iff, not_forall]
      exact ⟨w, List.mem_cons_self w rest, by simp [hcan]⟩
    · rw [if_neg hcan, findCrop_eq_none_iff t rest]
      rw [Bool.not_eq_true] at hcan
      constructor
      · intro hall w' hw'
        rcases List.mem_cons.1 hw' with rfl | hw'
        · exact hcan
        · exact hall w' hw'
      · intro hall w' hw'
        exact hall w' (List.mem_cons_of_mem _ hw')

/-- The loop of `CCD.cropTo` errors exactly when some target window has no
croppable source window. -/
theorem cropGo_error_iff (aws : List Window) :
    ∀ (ts : List Window) (n : ℕ),
      (∃ e, CCD.cropGo aws ts n = .error e) ↔
        ∃ t ∈ ts, CCD.findCrop aws t = none
  | [], n => by simp [CCD.cropGo]
  | t :: ts, n => by
    show (∃ e, (match CCD.findCrop aws t with
        | some w => (CCD.cropGo aws ts (n + 1)).map (w :: ·)
        | none => .error (.cropMatchFail (n + 1))) = .error e) ↔ _
    cases hf : CCD.findCrop aws t with
    | none =>
      simp only []
      constructor
      · intro _
        exact ⟨t, List.mem_cons_self t ts, hf⟩
      · intro _
        exact ⟨.cropMatchFail (n + 1), rfl⟩
    | some w =>
      simp only [except_map_eq_error, cropGo_error_iff aws ts (n + 1)]
      constructor
      · rintro ⟨t', ht', hn⟩
        exact ⟨t', List.mem_cons_of_mem _ ht', hn⟩
      · rintro ⟨t', ht', hn⟩
        rcases List.mem_cons.1 ht' with rfl | ht'
        · rw [hf] at hn; cases hn
        · exact ⟨t', ht', hn⟩

/-- When the loop of `CCD.cropTo` errors, the error names position
`n + k + 1` for the `k`-th (0-based) unmatched target window. -/
theorem cropGo_error_fail (aws : List Window) :
    ∀ (ts : List Window) (n : ℕ) (e : PyErr),
      CCD.cropGo aws ts n = .error e →
        ∃ k, (∃ hk : k < ts.length, CCD.findCrop aws ts[k] = none) ∧
          e = .cropMatchFail (n + k + 1)
  | [], n, e => by simp [CCD.cropGo]
  | t :: ts, n, e => by
    show (match CCD.findCrop aws t with
        | some w => (CCD.cropGo aws ts (n + 1)).map (w :: ·)
        | none => .error (.cropMatchFail (n + 1))) = .error e → _
    cases hf : CCD.findCrop aws t with
    | none =>
      intro he
      injection he with he
      exact ⟨0, ⟨by simp, by simpa using hf⟩, he.symm⟩
    | some w =>
      intro he
      rw [except_map_eq_error] at he
      rcases cropGo_error_fail aws ts (n + 1) e he with ⟨k, ⟨hk, hnone⟩, rfl⟩
      refine ⟨k + 1, ⟨by simpa using hk, by simpa using hnone⟩, ?_⟩
      exact congrArg PyErr.cropMatchFail (by omega)

/-- When every target finds itself, the loop of `CCD.cropTo` returns the
target list unchanged. -/
theorem cropGo_ok_of_self (aws : List Window) :
    ∀ (ts : List Window) (n : ℕ),
      (∀ t ∈ ts, CCD.findCrop aws t = some t) →
        CCD.cropGo aws ts n = .ok ts
  | [], _, _ => rfl
  | t :: ts, n, h => by
    show (match CCD.findCrop aws t with
        | some w => (CCD.cropGo aws ts (n + 1)).map (w :: ·)
        | none => .error (.cropMatchFail (n + 1))) = .ok (t :: ts)
    rw [h t (List.mem_cons_self t ts),
      cropGo_ok_of_self aws ts (n + 1) fun t' ht' => h t' (List.mem_cons_of_mem _ ht')]
    rfl

/-- Every window can be cropped to its own format. -/
theorem canCropTo_self_win (w : Window) : Window.canCropTo w w = true := by
  simp [Window.canCropTo]

/-- Two windows with equal data fields are equal. -/
theorem window_ext {a b : Window} (h1 : a.llx = b.llx) (h2 : a.lly = b.lly)
    (h3 : a.nx = b.nx) (h4 : a.ny = b.ny) (h5 : a.xbin = b.xbin)
    (h6 : a.ybin = b.ybin) (h7 : a.dtype = b.dtype) (h8 : a.data = b.data) :
    a = b := by
  cases a; cases b; simp_all

/-- Cropping a window to its own format reproduces it exactly. -/
theorem cropTo_self_win (w : Window) : w.cropTo w = w := by
  refine window_ext rfl rfl rfl rfl rfl rfl rfl ?_
  show ((List.range w.ny).map fun i => (List.range w.nx).map fun j =>
    Window.at2 w.data ((w.lly - w.lly) / w.ybin + i) ((w.llx - w.llx) / w.xbin + j)) = w.data
  simp only [Nat.sub_self, Nat.zero_div, Nat.zero_add]
  apply List.ext_getElem
  · simp [w.hrows]
  · intro i h1 h2
    rw [List.getElem_map]
    simp only [List.getElem_range]
    have hrow : w.data[i].length = w.nx := w.hcols w.data[i] (List.getElem_mem h2)
    apply List.ext_getElem
    · simp [hrow]
    · intro j hj1 hj2
      rw [List.getElem_map]
      simp only [List.getElem_range]
      simp [Window.at2, List.getElem?_eq_getElem, h2, hj2]

/-- When the only windows croppable to `t` are copies of `t`, the scan
returns `t` itself. -/
theorem findCrop_of_unique (t : Window) :
    ∀ (ws : List Window), t ∈ ws →
      (∀ w ∈ ws, Window.canCropTo w t = true → w = t) →
      CCD.findCrop ws t = some t
  | [], ht, _ => absurd ht (List.not_mem_nil t)
  | w :: rest, ht, hu => by
    show (if Window.canCropTo w t then some (w.cropTo t) else CCD.findCrop rest t)
        = some t
    by_cases hcan : Window.canCropTo w t = true
    · rw [if_pos hcan, hu w (List.mem_cons_self w rest) hcan, cropTo_self_win]
    · rw [if_neg hcan]
      have htr : t ∈ rest := by
        rcases List.mem_cons.1 ht with rfl | h
        · exact absurd (canCropTo_self_win t) hcan
        · exact h
      exact findCrop_of_unique t rest htr fun w' hw' =>
        hu w' (List.mem_cons_of_mem _ hw')

/-- C3: `cropTo` raises exactly when the maximum dimensions differ or some
target window has no croppable source window; a crop-match failure names
the unmatched target's 1-based position; success carries the source CCD's
time, dimensions, validity flag and header (the embedding is pure, so the
source CCD itself is untouched in every case). -/
theorem cropTo_spec (a b : CCD) :
    ((∃ e, CCD.cropTo a b = .error e) ↔
      (a.nxmax ≠ b.nxmax ∨ a.nymax ≠ b.nymax) ∨
        ∃ t ∈ b.data, ∀ w ∈ a.data, Window.canCropTo w t = false) ∧
    (∀ n, CCD.cropTo a b = .error (.cropMatchFail n) →
      1 ≤ n ∧ ∃ h : n - 1 < b.data.length,
        ∀ w ∈ a.data, Window.canCropTo w b.data[n - 1] = false) ∧
    (∀ r, CCD.cropTo a b = .ok r →
      r.time = a.time ∧ r.nxmax = a.nxmax ∧ r.nymax = a.nymax ∧
        r.good = a.good ∧ r.head = a.head) := by
  unfold CCD.cropTo
  by_cases hdim : a.nxmax ≠ b.nxmax ∨ a.nymax ≠ b.nymax
  · rw [if_pos hdim]
    refine ⟨⟨fun _ => Or.inl hdim, fun _ => ⟨.dimMismatch, rfl⟩⟩, ?_, ?_⟩
    · intro n hn
      injection hn with hn
      cases hn
    · intro r hr
      cases hr
  · rw [if_neg hdim]
    refine ⟨⟨?_, ?_⟩, ?_, ?_⟩
    · rintro ⟨e, he⟩
      rw [except_map_eq_error] at he
      rcases (cropGo_error_iff a.data b.data 0).1 ⟨e, he⟩ with ⟨t, ht, hnone⟩
      exact Or.inr ⟨t, ht, (findCrop_eq_none_iff t a.data).1 hnone⟩
    · rintro (h | ⟨t, ht, hall⟩)
      · exact absurd h hdim
      · rcases (cropGo_error_iff a.data b.data 0).2
            ⟨t, ht, (findCrop_eq_none_iff t a.data).2 hall⟩ with ⟨e, he⟩
        exact ⟨e, by rw [except_map_eq_error]; exact he⟩
    · intro n hn
      rw [except_map_eq_error] at hn
      rcases cropGo_error_fail a.data b.data 0 _ hn with ⟨k, ⟨hk, hnone⟩, hfail⟩
      injection hfail with hfail
      have hnk : n - 1 = k := by omega
      refine ⟨by omega, ⟨by omega, ?_⟩⟩
      simp only [hnk]
      exact (findCrop_eq_none_iff _ _).1 hnone
    · intro r hr
      rw [except_map_eq_ok] at hr
      rcases hr with ⟨ws, hws, rfl⟩
      exact ⟨rfl, rfl, rfl, rfl, rfl⟩

theorem cropTo_spec_witness :
    (∃ e, CCD.cropTo exCCDBadDims exCCD = .error e) ∧
      exCropRes.good = exCCD2.good :=
  ⟨(cropTo_spec exCCDBadDims exCCD).1.mpr (Or.inl (by decide)),
   ((cropTo_spec exCCD2 exCCD2).2.2 exCropRes (by decide)).2.2.2.1⟩

/-- C8 counterexample: a CCD whose first window encloses its second
(overlapping windows, same binning) satisfies `canCropTo(self)`, and
`cropTo(self)` succeeds, but the second resulting window carries pixel
values read from the first window, so it differs from the original. -/
theorem self_crop_overlap_counterexample :
    CCD.canCropTo exCCD2 exCCD2 = true ∧
      (CCD.cropTo exCCD2 exCCD2).map
          (fun r => (r.data.zip exCCD2.data).map fun p => Window.eqb p.1 p.2) =
        .ok [true, false] := by
  decide

/-- C8 amended: for a CCD `c` with `c.canCropTo(c)` in which the only
window croppable to any given window of `c` is (a copy of) that window
itself — as holds for the documented layout of mutually non-overlapping
windows — `c.cropTo(c)` succeeds and returns windows equal to the
originals. -/
theorem self_crop_identity (c : CCD)
    (hcan : CCD.canCropTo c c = true)
    (huniq : ∀ v ∈ c.data, ∀ w ∈ c.data, Window.canCropTo v w = true → v = w) :
    CCD.cropTo c c = .ok c := by
  unfold CCD.cropTo
  rw [if_neg (by simp)]
  rw [cropGo_ok_of_self c.data c.data 0 fun t ht =>
    findCrop_of_unique t c.data ht fun w hw hcw => huniq w hw t ht hcw]
  rfl

theorem self_crop_identity_witness : CCD.cropTo exCCD exCCD = .ok exCCD :=
  self_crop_identity exCCD (by decide) (by decide)

end Ultracam
